import Mathlib

/-!
Verification of `src/sota_tools/deploy.cc` (aktualizr-poc).

The file shallowly embeds the three functions of `deploy.cc` —
`UploadToTreehub`, `OfflineSignRepo` and `PushRootRef` — as pure Lean
functions over environments that capture the results of their external
collaborators (the authentication step, the local object source, the
curl transfer machinery and the external signing toolchain).  The
request-pool scheduler (`RequestPool`, `OSTreeObject`) is not part of
the sampled sources, so its per-iteration behaviour is an abstract
step function and its internal transition system is modelled from the
specification where a claim needs it.
-/

namespace Deploy

/-- Presence states of an object, as the specification describes them
(`unknown`, `queued`, `in-flight`, `present`, `failed`).  `present`
plays the role of `PresenceOnServer::kObjectPresent` in `deploy.cc`. -/
inductive Presence where
  | unknown
  | queued
  | inflight
  | present
  | failed
  deriving DecidableEq, Repr

/-- Modelled from the spec: the observable state of the request pool
that `UploadToTreehub` consults — the root object's presence
(`root_object->is_on_server()`), the stop flag (`is_stopped()`) and the
request counter (`total_requests_made()`).  The `RequestPool` sources
are not under `src/`; only these observations appear in `deploy.cc`. -/
structure RequestPool where
  rootPresence : Presence
  stopped : Bool
  totalRequestsMade : Nat
  deriving DecidableEq, Repr

/-- Modelled from the spec: a freshly constructed scheduler is not
stopped, has issued zero requests, and the root object's presence is
`unknown` before it is enqueued. -/
def initialPool : RequestPool :=
  { rootPresence := Presence.unknown, stopped := false, totalRequestsMade := 0 }

/-- Modelled from the spec: `RequestPool::AddQuery(root_object)` marks
the root object queued. -/
def RequestPool.addQuery (p : RequestPool) : RequestPool :=
  { p with rootPresence := Presence.queued }

/-- The exit condition of the `do`/`while` loop in `UploadToTreehub`
(`deploy.cc` line 43, negated): the loop exits when the root object is
present on the server or the pool is stopped. -/
def poolExit (p : RequestPool) : Bool :=
  decide (p.rootPresence = Presence.present) || p.stopped

/-- Log messages emitted by `UploadToTreehub` (`deploy.cc` lines 19,
27, 47, 49, 52), abstracted to their information content. -/
inductive LogMsg where
  | fatalAuthFailed
  | fatalCommitNotFound
  | infoUploadComplete (requests : Nat)
  | infoDryRunNoObjects
  | errorPushErrors
  deriving DecidableEq, Repr

/-- Environment of one `UploadToTreehub` invocation: the result of
`authenticate` (an exit code, `0` = `EXIT_SUCCESS`) and whether
`src_repo->GetObject(ostree_commit)` finds the commit (when it does
not, the C++ code catches `OSTreeObjectMissing`). -/
structure DeployEnv where
  authResult : Int
  rootObjectFound : Bool
  deriving DecidableEq, Repr

/-- Everything observable about one `UploadToTreehub` invocation: the
boolean return value, the number of requests issued, whether the local
object source was consulted (`GetObject` called), whether a
`RequestPool` was constructed, how many loop iterations ran, the final
pool state (when the loop ran), and the log messages. -/
structure UploadOutcome where
  result : Bool
  requestsIssued : Nat
  consultedSource : Bool
  schedulerConstructed : Bool
  loopIterations : Nat
  finalPool : Option RequestPool
  logs : List LogMsg
  deriving DecidableEq, Repr

/-- Result of running `UploadToTreehub`: the initial `assert` can
fail, the loop can fail to terminate within the given fuel, or the
function returns an outcome. -/
inductive UploadRun where
  | assertFailed
  | diverged
  | done (o : UploadOutcome)
  deriving DecidableEq, Repr

/-- The `do { request_pool.Loop(dryrun); } while (...)` loop of
`UploadToTreehub` (`deploy.cc` lines 41-43), with the behaviour of one
`RequestPool::Loop` call abstracted as `step` and termination bounded
by `fuel`.  Returns the list of pool states at which `step` was
invoked together with the state at loop exit. -/
def uploadLoopTrace (step : Bool → RequestPool → RequestPool) (dryrun : Bool) :
    Nat → RequestPool → Option (List RequestPool × RequestPool)
  | 0, _ => none
  | fuel + 1, p =>
      if poolExit (step dryrun p) then some ([p], step dryrun p)
      else
        match uploadLoopTrace step dryrun fuel (step dryrun p) with
        | none => none
        | some (ps, r) => some (p :: ps, r)

/-- Body of `UploadToTreehub` after the `assert` (`deploy.cc` lines
18-55): authenticate, resolve the root object, construct the pool,
enqueue the root, run the loop, log, and return whether the root is
present. -/
def uploadToTreehubBody (step : Bool → RequestPool → RequestPool) (fuel : Nat)
    (env : DeployEnv) (dryrun : Bool) : UploadRun :=
  if env.authResult ≠ 0 then
    UploadRun.done
      { result := false, requestsIssued := 0, consultedSource := false,
        schedulerConstructed := false, loopIterations := 0, finalPool := none,
        logs := [LogMsg.fatalAuthFailed] }
  else if ¬env.rootObjectFound then
    UploadRun.done
      { result := false, requestsIssued := 0, consultedSource := true,
        schedulerConstructed := false, loopIterations := 0, finalPool := none,
        logs := [LogMsg.fatalCommitNotFound] }
  else
    match uploadLoopTrace step dryrun fuel (initialPool.addQuery) with
    | none => UploadRun.diverged
    | some (ps, final) =>
        UploadRun.done
          { result := decide (final.rootPresence = Presence.present),
            requestsIssued := final.totalRequestsMade,
            consultedSource := true,
            schedulerConstructed := true,
            loopIterations := ps.length,
            finalPool := some final,
            logs :=
              [if final.rootPresence = Presence.present then
                 (if dryrun then LogMsg.infoDryRunNoObjects
                  else LogMsg.infoUploadComplete final.totalRequestsMade)
               else LogMsg.errorPushErrors] }

/-- `UploadToTreehub` (`deploy.cc` lines 13-56).  The C++ function
begins with `assert(max_curl_requests > 0)`; a violated assertion is
modelled as `UploadRun.assertFailed`. -/
def uploadToTreehub (step : Bool → RequestPool → RequestPool) (fuel : Nat)
    (env : DeployEnv) (dryrun : Bool) (maxCurlRequests : Int) : UploadRun :=
  if maxCurlRequests ≤ 0 then UploadRun.assertFailed
  else uploadToTreehubBody step fuel env dryrun

/-- Environment of one `PushRootRef` invocation: whether the
credentials can sign offline, the `authenticate` exit code, the
`curl_easy_perform` result (a `CURLcode`, `0` = `CURLE_OK`) and the
HTTP response code returned by `CURLINFO_RESPONSE_CODE`. -/
structure PushEnv where
  canSignOffline : Bool
  authResult : Int
  curlPerformResult : Nat
  httpResponseCode : Int
  deriving DecidableEq, Repr

/-- Log messages emitted by `PushRootRef` (`deploy.cc` lines 107, 113,
123, 129), abstracted to their information content. -/
inductive PushLog where
  | warnPushByRefname
  | fatalAuthFailed
  | errorTransport (code : Nat)
  | errorHttp (code : Int)
  deriving DecidableEq, Repr

/-- Observable result of one `PushRootRef` invocation: the boolean
return value, the number of HTTP ref-push exchanges performed, and the
log messages. -/
structure PushOutcome where
  result : Bool
  httpRequests : Nat
  logs : List PushLog
  deriving DecidableEq, Repr

/-- `PushRootRef` (`deploy.cc` lines 102-135): warn when offline
signing is possible, authenticate, and unless `dry_run` perform the
single ref-push curl exchange, failing on a transport error or on any
HTTP response code other than 200. -/
def pushRootRef (env : PushEnv) (dryRun : Bool) : PushOutcome :=
  let warn := if env.canSignOffline then [PushLog.warnPushByRefname] else []
  if env.authResult ≠ 0 then
    { result := false, httpRequests := 0, logs := warn ++ [PushLog.fatalAuthFailed] }
  else if ¬dryRun then
    if env.curlPerformResult ≠ 0 then
      { result := false, httpRequests := 1,
        logs := warn ++ [PushLog.errorTransport env.curlPerformResult] }
    else if env.httpResponseCode ≠ 200 then
      { result := false, httpRequests := 1,
        logs := warn ++ [PushLog.errorHttp env.httpResponseCode] }
    else
      { result := true, httpRequests := 1, logs := warn }
  else
    { result := true, httpRequests := 0, logs := warn }

/-- The five external `garage-sign` commands run by `OfflineSignRepo`,
in source order (`deploy.cc` lines 69, 74, 82, 88, 92). -/
inductive SignCmd where
  | init
  | targetsPull
  | targetsAdd
  | targetsSign
  | targetsPush
  deriving DecidableEq, Repr

/-- Environment of one `OfflineSignRepo` invocation: whether
`./tuf/aktualizr` exists as a directory beforehand, and the `system()`
exit status of each of the five `garage-sign` commands. -/
structure SignEnv where
  localRepoIsDirectory : Bool
  initResult : Int
  pullResult : Int
  addResult : Int
  signResult : Int
  pushResult : Int
  deriving DecidableEq, Repr

/-- Observable result of one `OfflineSignRepo` invocation: the boolean
return value, the commands actually run in order, whether the
pre-existing `./tuf/aktualizr` directory was removed before the first
command, and whether the directory was removed again after success. -/
structure SignOutcome where
  result : Bool
  commandsRun : List SignCmd
  removedBefore : Bool
  removedAfter : Bool
  deriving DecidableEq, Repr

/-- `OfflineSignRepo` (`deploy.cc` lines 58-100): remove a
pre-existing `./tuf/aktualizr` directory, then run the five
`garage-sign` commands in order, returning `false` at the first
command whose `system()` status is nonzero, and on full success remove
the local directory and return `true`. -/
def offlineSignRepo (env : SignEnv) : SignOutcome :=
  let removed := env.localRepoIsDirectory
  if env.initResult ≠ 0 then
    { result := false, commandsRun := [SignCmd.init],
      removedBefore := removed, removedAfter := false }
  else if env.pullResult ≠ 0 then
    { result := false, commandsRun := [SignCmd.init, SignCmd.targetsPull],
      removedBefore := removed, removedAfter := false }
  else if env.addResult ≠ 0 then
    { result := false,
      commandsRun := [SignCmd.init, SignCmd.targetsPull, SignCmd.targetsAdd],
      removedBefore := removed, removedAfter := false }
  else if env.signResult ≠ 0 then
    { result := false,
      commandsRun :=
        [SignCmd.init, SignCmd.targetsPull, SignCmd.targetsAdd, SignCmd.targetsSign],
      removedBefore := removed, removedAfter := false }
  else if env.pushResult ≠ 0 then
    { result := false,
      commandsRun :=
        [SignCmd.init, SignCmd.targetsPull, SignCmd.targetsAdd, SignCmd.targetsSign,
         SignCmd.targetsPush],
      removedBefore := removed, removedAfter := false }
  else
    { result := true,
      commandsRun :=
        [SignCmd.init, SignCmd.targetsPull, SignCmd.targetsAdd, SignCmd.targetsSign,
         SignCmd.targetsPush],
      removedBefore := removed, removedAfter := true }

/-- Sample pool step used in concrete runs: one `RequestPool::Loop`
call that succeeds in making the root object present. -/
def stepToPresent : Bool → RequestPool → RequestPool :=
  fun _ p => { p with rootPresence := Presence.present }

/-- Sample environment: authentication succeeds and the commit is in
the source repository. -/
def envOk : DeployEnv := { authResult := 0, rootObjectFound := true }

/-- Sample environment: authentication fails. -/
def envAuthFail : DeployEnv := { authResult := 1, rootObjectFound := true }

/-- Sample environment: authentication succeeds but the commit is
missing from the source repository. -/
def envRootMissing : DeployEnv := { authResult := 0, rootObjectFound := false }

/-- The pool state after one `stepToPresent` call on the seeded pool. -/
def poolFinal : RequestPool :=
  { rootPresence := Presence.present, stopped := false, totalRequestsMade := 0 }

/-- The outcome of an `UploadToTreehub` run that fails authentication. -/
def authFailOutcome : UploadOutcome :=
  { result := false, requestsIssued := 0, consultedSource := false,
    schedulerConstructed := false, loopIterations := 0, finalPool := none,
    logs := [LogMsg.fatalAuthFailed] }

/-- The outcome of an `UploadToTreehub` run whose commit is missing. -/
def rootMissingOutcome : UploadOutcome :=
  { result := false, requestsIssued := 0, consultedSource := true,
    schedulerConstructed := false, loopIterations := 0, finalPool := none,
    logs := [LogMsg.fatalCommitNotFound] }

/-- The outcome of a successful non-dry-run `UploadToTreehub` run
under `stepToPresent`, `envOk` and one unit of fuel. -/
def okOutcome : UploadOutcome :=
  { result := true, requestsIssued := 0, consultedSource := true,
    schedulerConstructed := true, loopIterations := 1, finalPool := some poolFinal,
    logs := [LogMsg.infoUploadComplete 0] }

/-- The outcome of a successful dry-run `UploadToTreehub` run under
`stepToPresent`, `envOk` and one unit of fuel. -/
def dryRunOkOutcome : UploadOutcome :=
  { result := true, requestsIssued := 0, consultedSource := true,
    schedulerConstructed := true, loopIterations := 1, finalPool := some poolFinal,
    logs := [LogMsg.infoDryRunNoObjects] }

/-- Sample `PushRootRef` environment: everything succeeds. -/
def pushEnvOk : PushEnv :=
  { canSignOffline := false, authResult := 0, curlPerformResult := 0,
    httpResponseCode := 200 }

/-- Sample `PushRootRef` environment: authentication fails. -/
def pushEnvAuthFail : PushEnv :=
  { canSignOffline := false, authResult := 1, curlPerformResult := 0,
    httpResponseCode := 200 }

/-- Sample `OfflineSignRepo` environment: every command succeeds. -/
def signEnvOk : SignEnv :=
  { localRepoIsDirectory := false, initResult := 0, pullResult := 0,
    addResult := 0, signResult := 0, pushResult := 0 }

end Deploy

namespace Sched

/-- Modelled from the spec: the dependency graph of content-addressed
objects, objects named by their hash (a natural number stands in for
the hex hash).  The `OSTreeObject` sources are not under `src/`. -/
structure ObjGraph where
  deps : Nat → List Nat

/-- Modelled from the spec: scheduler state — each object's presence,
the stop flag and the monotone request counter (spec section 3,
"Transfer Scheduler state"). -/
structure SchedState where
  presence : Nat → Deploy.Presence
  stopped : Bool
  requestsIssued : Nat

/-- Modelled from the spec: the initial scheduler state — every object
`unknown`, not stopped, zero requests issued. -/
def initialSched : SchedState :=
  { presence := fun _ => Deploy.Presence.unknown, stopped := false, requestsIssued := 0 }

/-- Modelled from the spec: the atomic transitions of the scheduler
run-step (spec sections 4.1 and 4.2).  An object is enqueued when first
referenced; it is dispatched (moved to in-flight, one request issued)
only when the scheduler is not stopped and every dependency is
`present`; a completed transfer marks it `present` on success and
`failed` on error; a failed object may be re-queued under the retry
bound; a fatal outcome stops the scheduler. -/
inductive SchedStep (g : ObjGraph) : SchedState → SchedState → Prop where
  | enqueue (o : Nat) (s : SchedState) :
      s.presence o = Deploy.Presence.unknown →
      SchedStep g s { s with presence := Function.update s.presence o Deploy.Presence.queued }
  | dispatch (o : Nat) (s : SchedState) :
      s.stopped = false →
      s.presence o = Deploy.Presence.queued →
      (∀ d ∈ g.deps o, s.presence d = Deploy.Presence.present) →
      SchedStep g s
        { s with presence := Function.update s.presence o Deploy.Presence.inflight,
                 requestsIssued := s.requestsIssued + 1 }
  | completeOk (o : Nat) (s : SchedState) :
      s.presence o = Deploy.Presence.inflight →
      SchedStep g s { s with presence := Function.update s.presence o Deploy.Presence.present }
  | completeFail (o : Nat) (s : SchedState) :
      s.presence o = Deploy.Presence.inflight →
      SchedStep g s { s with presence := Function.update s.presence o Deploy.Presence.failed }
  | requeue (o : Nat) (s : SchedState) :
      s.presence o = Deploy.Presence.failed →
      SchedStep g s { s with presence := Function.update s.presence o Deploy.Presence.queued }
  | stop (s : SchedState) :
      SchedStep g s { s with stopped := true }

/-- Reachable scheduler states: the initial state, closed under
`SchedStep`. -/
inductive Reachable (g : ObjGraph) : SchedState → Prop where
  | init : Reachable g initialSched
  | step {s t : SchedState} : Reachable g s → SchedStep g s t → Reachable g t

/-- Dependency closure: every `present` object has all of its
dependencies `present`. -/
def DepClosed (g : ObjGraph) (s : SchedState) : Prop :=
  ∀ o, s.presence o = Deploy.Presence.present →
    ∀ d ∈ g.deps o, s.presence d = Deploy.Presence.present

/-- Strengthened invariant: every `present` or `inflight` object has
all of its dependencies `present`. -/
def DispatchInv (g : ObjGraph) (s : SchedState) : Prop :=
  ∀ o, (s.presence o = Deploy.Presence.present ∨ s.presence o = Deploy.Presence.inflight) →
    ∀ d ∈ g.deps o, s.presence d = Deploy.Presence.present

/-- A sample dependency graph used in witnesses: object 1 depends on
object 0, nothing else has dependencies. -/
def graphW : ObjGraph :=
  { deps := fun n => if n = 1 then [0] else [] }

theorem dispatchInv_initial (g : ObjGraph) : DispatchInv g initialSched := by
  intro o ho
  rcases ho with h | h <;> simp [initialSched] at h

theorem dispatchInv_step {g : ObjGraph} {s t : SchedState}
    (inv : DispatchInv g s) (st : SchedStep g s t) : DispatchInv g t := by
  cases st with
  | enqueue o _ ho =>
      intro x hx d hd
      simp only [Function.update_apply] at hx ⊢
      by_cases hxo : x = o
      · rw [if_pos hxo] at hx
        rcases hx with h | h <;> exact absurd h (by decide)
      · rw [if_neg hxo] at hx
        have hdp := inv x hx d hd
        by_cases hdo : d = o
        · rw [hdo, ho] at hdp
          exact absurd hdp (by decide)
        · rw [if_neg hdo]
          exact hdp
  | dispatch o _ hstop hq hdeps =>
      intro x hx d hd
      simp only [Function.update_apply] at hx ⊢
      by_cases hxo : x = o
      · have hdp := hdeps d (by rwa [hxo] at hd)
        by_cases hdo : d = o
        · rw [hdo, hq] at hdp
          exact absurd hdp (by decide)
        · rw [if_neg hdo]
          exact hdp
      · rw [if_neg hxo] at hx
        have hdp := inv x hx d hd
        by_cases hdo : d = o
        · rw [hdo, hq] at hdp
          exact absurd hdp (by decide)
        · rw [if_neg hdo]
          exact hdp
  | completeOk o _ hin =>
      intro x hx d hd
      simp only [Function.update_apply] at hx ⊢
      by_cases hdo : d = o
      · rw [if_pos hdo]
      · rw [if_neg hdo]
        by_cases hxo : x = o
        · exact inv o (Or.inr hin) d (by rwa [hxo] at hd)
        · rw [if_neg hxo] at hx
          exact inv x hx d hd
  | completeFail o _ hin =>
      intro x hx d hd
      simp only [Function.update_apply] at hx ⊢
      by_cases hxo : x = o
      · rw [if_pos hxo] at hx
        rcases hx with h | h <;> exact absurd h (by decide)
      · rw [if_neg hxo] at hx
        have hdp := inv x hx d hd
        by_cases hdo : d = o
        · rw [hdo, hin] at hdp
          exact absurd hdp (by decide)
        · rw [if_neg hdo]
          exact hdp
  | requeue o _ hf =>
      intro x hx d hd
      simp only [Function.update_apply] at hx ⊢
      by_cases hxo : x = o
      · rw [if_pos hxo] at hx
        rcases hx with h | h <;> exact absurd h (by decide)
      · rw [if_neg hxo] at hx
        have hdp := inv x hx d hd
        by_cases hdo : d = o
        · rw [hdo, hf] at hdp
          exact absurd hdp (by decide)
        · rw [if_neg hdo]
          exact hdp
  | stop =>
      intro x hx d hd
      exact inv x hx d hd

theorem reachable_dispatchInv {g : ObjGraph} {s : SchedState}
    (h : Reachable g s) : DispatchInv g s := by
  induction h with
  | init => exact dispatchInv_initial g
  | step _ st ih => exact dispatchInv_step ih st

end Sched

namespace Deploy

/-- Everything the `do`/`while` loop of `UploadToTreehub` guarantees
when it terminates: the recorded states are exactly those at which
`RequestPool::Loop` was invoked, starting from the seed, each
successive state obtained by one `step`, the loop body ran at least
once, the exit condition holds at the final state, and (when the seed
does not already satisfy the exit condition) the exit condition is
false at every state at which `step` is invoked. -/
theorem uploadLoopTrace_sound (step : Bool → RequestPool → RequestPool) (dryrun : Bool) :
    ∀ (fuel : Nat) (p : RequestPool) (ps : List RequestPool) (final : RequestPool),
      uploadLoopTrace step dryrun fuel p = some (ps, final) →
      ps.head? = some p ∧
      List.Chain' (fun a b => b = step dryrun a) (ps ++ [final]) ∧
      poolExit final = true ∧
      1 ≤ ps.length ∧
      (poolExit p = false → ∀ s ∈ ps, poolExit s = false) := by
  intro fuel
  induction fuel with
  | zero =>
      intro p ps final h
      simp [uploadLoopTrace] at h
  | succ n ih =>
      intro p ps final h
      simp only [uploadLoopTrace] at h
      by_cases hq : poolExit (step dryrun p) = true
      · rw [if_pos hq] at h
        simp only [Option.some.injEq, Prod.mk.injEq] at h
        obtain ⟨h1, h2⟩ := h
        subst h1
        subst h2
        refine ⟨rfl, ?_, hq, by simp, ?_⟩
        · simp [List.chain'_cons]
        · intro hp s hs
          simp only [List.mem_singleton] at hs
          subst hs
          exact hp
      · rw [if_neg hq] at h
        cases hrec : uploadLoopTrace step dryrun n (step dryrun p) with
        | none =>
            rw [hrec] at h
            simp at h
        | some pr =>
            obtain ⟨ps0, r⟩ := pr
            rw [hrec] at h
            simp only [Option.some.injEq, Prod.mk.injEq] at h
            obtain ⟨h1, h2⟩ := h
            subst h1
            subst h2
            obtain ⟨ihHead, ihChain, ihExit, ihLen, ihMem⟩ := ih (step dryrun p) ps0 r hrec
            cases ps0 with
            | nil => simp at ihHead
            | cons a t =>
                simp only [List.head?_cons, Option.some.injEq] at ihHead
                subst ihHead
                refine ⟨rfl, ?_, ihExit, by simp, ?_⟩
                · exact List.Chain'.cons rfl ihChain
                · intro hp s hs
                  have hq' : poolExit (step dryrun p) = false :=
                    Bool.not_eq_true _ ▸ eq_false_of_ne_true hq
                  rcases List.mem_cons.mp hs with hsp | hst
                  · subst hsp
                    exact hp
                  · exact ihMem hq' s hst

end Deploy

namespace Deploy

/-- C1: for every terminating invocation of the upload orchestrator
`UploadToTreehub`, the boolean result is `true` if and only if, when
its loop exits, the root object's presence state is `present`; when no
loop ran (auth failure or missing root) the result is `false`, and the
result type is a plain boolean, so there is no partial-success value. -/
theorem upload_result_iff_root_present
    (step : Bool → RequestPool → RequestPool) (fuel : Nat) (env : DeployEnv)
    (dryrun : Bool) (n : Int) (o : UploadOutcome)
    (h : uploadToTreehub step fuel env dryrun n = UploadRun.done o) :
    (∀ p, o.finalPool = some p → (o.result = true ↔ p.rootPresence = Presence.present)) ∧
    (o.finalPool = none → o.result = false) := by
  unfold uploadToTreehub at h
  by_cases hn : n ≤ 0
  · rw [if_pos hn] at h
    cases h
  · rw [if_neg hn] at h
    unfold uploadToTreehubBody at h
    by_cases ha : env.authResult ≠ 0
    · rw [if_pos ha] at h
      cases h
      exact ⟨(fun p hp => nomatch hp), fun _ => rfl⟩
    · rw [if_neg ha] at h
      by_cases hr : ¬env.rootObjectFound
      · rw [if_pos hr] at h
        cases h
        exact ⟨(fun p hp => nomatch hp), fun _ => rfl⟩
      · rw [if_neg hr] at h
        cases hloop : uploadLoopTrace step dryrun fuel (initialPool.addQuery) with
        | none =>
            rw [hloop] at h
            cases h
        | some pr =>
            obtain ⟨ps, final⟩ := pr
            rw [hloop] at h
            cases h
            refine ⟨fun p hp => ?_, fun hp => nomatch hp⟩
            simp only [Option.some.injEq] at hp
            subst hp
            simp [decide_eq_true_iff]

/-- C1 witness: a concrete successful run in which the loop exits with
the root present and the result is `true`. -/
theorem upload_result_iff_root_present_witness :
    uploadToTreehub stepToPresent 1 envOk false 1 = UploadRun.done okOutcome ∧
    ((∀ p, okOutcome.finalPool = some p →
        (okOutcome.result = true ↔ p.rootPresence = Presence.present)) ∧
      (okOutcome.finalPool = none → okOutcome.result = false)) :=
  ⟨by decide, upload_result_iff_root_present stepToPresent 1 envOk false 1 okOutcome (by decide)⟩

end Deploy

namespace Deploy

/-- C3: when authentication fails (and the precondition on the
concurrency limit holds), `UploadToTreehub` returns `false`, issues
zero requests, never consults the local object source, and constructs
no scheduler. -/
theorem upload_auth_failure_short_circuit
    (step : Bool → RequestPool → RequestPool) (fuel : Nat) (env : DeployEnv)
    (dryrun : Bool) (n : Int) (hn : 0 < n) (ha : env.authResult ≠ 0) :
    uploadToTreehub step fuel env dryrun n = UploadRun.done authFailOutcome := by
  unfold uploadToTreehub uploadToTreehubBody
  rw [if_neg (not_le.mpr hn), if_pos ha]
  rfl

/-- C3 witness: a concrete invocation with a failing authentication
step. -/
theorem upload_auth_failure_short_circuit_witness :
    ((0 : Int) < 1 ∧ envAuthFail.authResult ≠ 0) ∧
      uploadToTreehub stepToPresent 1 envAuthFail false 1 = UploadRun.done authFailOutcome :=
  ⟨⟨by decide, by decide⟩,
   upload_auth_failure_short_circuit stepToPresent 1 envAuthFail false 1 (by decide) (by decide)⟩

/-- C4: when authentication succeeds but the commit hash is absent
from the local object source (`GetObject` raises `OSTreeObjectMissing`),
`UploadToTreehub` returns `false` and issues zero requests; no
scheduler is constructed. -/
theorem upload_root_missing_short_circuit
    (step : Bool → RequestPool → RequestPool) (fuel : Nat) (env : DeployEnv)
    (dryrun : Bool) (n : Int) (hn : 0 < n) (ha : env.authResult = 0)
    (hr : env.rootObjectFound = false) :
    uploadToTreehub step fuel env dryrun n = UploadRun.done rootMissingOutcome := by
  unfold uploadToTreehub uploadToTreehubBody
  rw [if_neg (not_le.mpr hn), if_neg (by simp [ha]), if_pos (by simp [hr])]
  rfl

/-- C4 witness: a concrete invocation whose commit is missing from the
source repository. -/
theorem upload_root_missing_short_circuit_witness :
    ((0 : Int) < 1 ∧ envRootMissing.authResult = 0 ∧ envRootMissing.rootObjectFound = false) ∧
      uploadToTreehub stepToPresent 1 envRootMissing false 1 = UploadRun.done rootMissingOutcome :=
  ⟨⟨by decide, by decide, by decide⟩,
   upload_root_missing_short_circuit stepToPresent 1 envRootMissing false 1
     (by decide) (by decide) (by decide)⟩

/-- C6: under the precondition `max_curl_requests > 0` the assertion
at the start of `UploadToTreehub` holds and execution proceeds to the
authentication step (the function's behaviour is exactly that of the
post-assert body, and it never reports an assertion failure). -/
theorem upload_assert_precondition
    (step : Bool → RequestPool → RequestPool) (fuel : Nat) (env : DeployEnv)
    (dryrun : Bool) (n : Int) (hn : 0 < n) :
    uploadToTreehub step fuel env dryrun n = uploadToTreehubBody step fuel env dryrun ∧
    uploadToTreehub step fuel env dryrun n ≠ UploadRun.assertFailed := by
  have heq : uploadToTreehub step fuel env dryrun n = uploadToTreehubBody step fuel env dryrun := by
    unfold uploadToTreehub
    rw [if_neg (not_le.mpr hn)]
  refine ⟨heq, ?_⟩
  rw [heq]
  unfold uploadToTreehubBody
  by_cases ha : env.authResult ≠ 0
  · rw [if_pos ha]
    simp
  · rw [if_neg ha]
    by_cases hr : ¬env.rootObjectFound
    · rw [if_pos hr]
      simp
    · rw [if_neg hr]
      cases hloop : uploadLoopTrace step dryrun fuel (initialPool.addQuery) with
      | none => simp
      | some pr =>
          obtain ⟨ps, final⟩ := pr
          simp

/-- C6 witness: a concrete invocation with a positive concurrency
limit. -/
theorem upload_assert_precondition_witness :
    (0 : Int) < 1 ∧
      (uploadToTreehub stepToPresent 1 envOk false 1 = uploadToTreehubBody stepToPresent 1 envOk false ∧
       uploadToTreehub stepToPresent 1 envOk false 1 ≠ UploadRun.assertFailed) :=
  ⟨by decide, upload_assert_precondition stepToPresent 1 envOk false 1 (by decide)⟩

end Deploy

namespace Deploy

/-- C5: after successful authentication and root resolution,
`UploadToTreehub` repeatedly invokes the pool's run-step starting from
the freshly seeded pool; when the loop terminates, the run-step was
invoked at least once, successive invocation states are linked by one
run-step each, the exit condition (root present or pool stopped) holds
at the state where the loop exits, and the exit condition is false at
every state at which a run-step is invoked — so no run-step call is
made after the exit condition holds. -/
theorem upload_loop_protocol
    (step : Bool → RequestPool → RequestPool) (fuel : Nat) (env : DeployEnv)
    (dryrun : Bool) (n : Int) (ps : List RequestPool) (final : RequestPool)
    (hn : 0 < n) (ha : env.authResult = 0) (hr : env.rootObjectFound = true)
    (hloop : uploadLoopTrace step dryrun fuel (initialPool.addQuery) = some (ps, final)) :
    (∃ o : UploadOutcome, uploadToTreehub step fuel env dryrun n = UploadRun.done o ∧
        o.finalPool = some final ∧ o.loopIterations = ps.length) ∧
    ps.head? = some (initialPool.addQuery) ∧
    List.Chain' (fun a b => b = step dryrun a) (ps ++ [final]) ∧
    1 ≤ ps.length ∧
    poolExit final = true ∧
    ∀ s ∈ ps, poolExit s = false := by
  obtain ⟨sHead, sChain, sExit, sLen, sMem⟩ :=
    uploadLoopTrace_sound step dryrun fuel (initialPool.addQuery) ps final hloop
  refine ⟨?_, sHead, sChain, sLen, sExit, sMem (by decide)⟩
  unfold uploadToTreehub uploadToTreehubBody
  rw [if_neg (not_le.mpr hn), if_neg (by simp [ha]), if_neg (by simp [hr]), hloop]
  exact ⟨_, rfl, rfl, rfl⟩

/-- C5 witness: a concrete run whose loop takes exactly one iteration
and exits with the root present. -/
theorem upload_loop_protocol_witness :
    ((0 : Int) < 1 ∧ envOk.authResult = 0 ∧ envOk.rootObjectFound = true ∧
      uploadLoopTrace stepToPresent false 1 (initialPool.addQuery) =
        some ([initialPool.addQuery], poolFinal)) ∧
    ((∃ o : UploadOutcome, uploadToTreehub stepToPresent 1 envOk false 1 = UploadRun.done o ∧
        o.finalPool = some poolFinal ∧ o.loopIterations = [initialPool.addQuery].length) ∧
      [initialPool.addQuery].head? = some (initialPool.addQuery) ∧
      List.Chain' (fun a b => b = stepToPresent false a) ([initialPool.addQuery] ++ [poolFinal]) ∧
      1 ≤ [initialPool.addQuery].length ∧
      poolExit poolFinal = true ∧
      ∀ s ∈ [initialPool.addQuery], poolExit s = false) :=
  ⟨⟨by decide, by decide, by decide, by decide⟩,
   upload_loop_protocol stepToPresent 1 envOk false 1 [initialPool.addQuery] poolFinal
     (by decide) (by decide) (by decide) (by decide)⟩

end Deploy

namespace Deploy

/-- C7 counterexample: a dry-run invocation of `UploadToTreehub` in
which authentication fails does not report that no objects were
uploaded — it logs the authentication failure instead — refuting the
claim for arbitrary dry-run invocations. -/
theorem dry_run_reporting_counterexample :
    uploadToTreehub stepToPresent 1 envAuthFail true 1 = UploadRun.done authFailOutcome ∧
    LogMsg.infoDryRunNoObjects ∉ authFailOutcome.logs :=
  ⟨by decide, by decide⟩

/-- C7 (amended): on every successful invocation (result `true`), a
dry-run reports that no objects were uploaded and a non-dry-run
reports the total number of requests issued; the log line is the only
notice beside the boolean result and request count. -/
theorem upload_success_reporting
    (step : Bool → RequestPool → RequestPool) (fuel : Nat) (env : DeployEnv)
    (dryrun : Bool) (n : Int) (o : UploadOutcome)
    (h : uploadToTreehub step fuel env dryrun n = UploadRun.done o)
    (hs : o.result = true) :
    (dryrun = true → o.logs = [LogMsg.infoDryRunNoObjects]) ∧
    (dryrun = false → o.logs = [LogMsg.infoUploadComplete o.requestsIssued]) := by
  unfold uploadToTreehub at h
  by_cases hn : n ≤ 0
  · rw [if_pos hn] at h
    cases h
  · rw [if_neg hn] at h
    unfold uploadToTreehubBody at h
    by_cases ha : env.authResult ≠ 0
    · rw [if_pos ha] at h
      cases h
      simp at hs
    · rw [if_neg ha] at h
      by_cases hr : ¬env.rootObjectFound
      · rw [if_pos hr] at h
        cases h
        simp at hs
      · rw [if_neg hr] at h
        cases hloop : uploadLoopTrace step dryrun fuel (initialPool.addQuery) with
        | none =>
            rw [hloop] at h
            cases h
        | some pr =>
            obtain ⟨ps, final⟩ := pr
            rw [hloop] at h
            cases h
            have hpres : final.rootPresence = Presence.present := of_decide_eq_true hs
            constructor <;> intro hd <;> subst hd <;> simp [hpres]

/-- C7 witness: a concrete successful dry-run invocation reporting the
dry-run notice. -/
theorem upload_success_reporting_witness :
    (uploadToTreehub stepToPresent 1 envOk true 1 = UploadRun.done dryRunOkOutcome ∧
      dryRunOkOutcome.result = true) ∧
    ((true = true → dryRunOkOutcome.logs = [LogMsg.infoDryRunNoObjects]) ∧
      (true = false → dryRunOkOutcome.logs =
        [LogMsg.infoUploadComplete dryRunOkOutcome.requestsIssued])) :=
  ⟨⟨by decide, by decide⟩,
   upload_success_reporting stepToPresent 1 envOk true 1 dryRunOkOutcome (by decide) (by decide)⟩

/-- C8: `PushRootRef` returns `false` whenever authentication fails,
and when authentication succeeds on a dry run it returns `true`
without issuing any HTTP request. -/
theorem pushRootRef_auth_and_dry_run (env : PushEnv) (dryRun : Bool) :
    (env.authResult ≠ 0 → (pushRootRef env dryRun).result = false) ∧
    (env.authResult = 0 → dryRun = true →
      (pushRootRef env dryRun).result = true ∧ (pushRootRef env dryRun).httpRequests = 0) := by
  constructor
  · intro ha
    simp [pushRootRef, ha]
  · intro ha hd
    subst hd
    simp [pushRootRef, ha]

/-- C8 witness: concrete auth-failure and successful dry-run
invocations of `PushRootRef`. -/
theorem pushRootRef_auth_and_dry_run_witness :
    (pushRootRef pushEnvAuthFail true).result = false ∧
    (pushRootRef pushEnvOk true).result = true ∧
    (pushRootRef pushEnvOk true).httpRequests = 0 :=
  ⟨(pushRootRef_auth_and_dry_run pushEnvAuthFail true).1 (by decide),
   ((pushRootRef_auth_and_dry_run pushEnvOk true).2 (by decide) rfl).1,
   ((pushRootRef_auth_and_dry_run pushEnvOk true).2 (by decide) rfl).2⟩

/-- C9: on a non-dry-run invocation of `PushRootRef` with successful
authentication, exactly one ref-push HTTP exchange is performed, and
the function returns `true` if and only if the exchange has no
transport error and the HTTP response code is exactly 200. -/
theorem pushRootRef_non_dry_run_result (env : PushEnv) (ha : env.authResult = 0) :
    ((pushRootRef env false).result = true ↔
      (env.curlPerformResult = 0 ∧ env.httpResponseCode = 200)) ∧
    (pushRootRef env false).httpRequests = 1 := by
  by_cases hc : env.curlPerformResult = 0
  · by_cases hr2 : env.httpResponseCode = 200
    · simp [pushRootRef, ha, hc, hr2]
    · simp [pushRootRef, ha, hc, hr2]
  · simp [pushRootRef, ha, hc]

/-- C9 witness: a concrete non-dry-run invocation with a 200
response. -/
theorem pushRootRef_non_dry_run_result_witness :
    pushEnvOk.authResult = 0 ∧
    (((pushRootRef pushEnvOk false).result = true ↔
        (pushEnvOk.curlPerformResult = 0 ∧ pushEnvOk.httpResponseCode = 200)) ∧
      (pushRootRef pushEnvOk false).httpRequests = 1) :=
  ⟨by decide, pushRootRef_non_dry_run_result pushEnvOk (by decide)⟩

/-- C10: `OfflineSignRepo` returns `true` exactly when all five
`garage-sign` commands succeed; it stops at the first failing command
(returning `false` with exactly the commands up to and including it
having run), and any pre-existing `./tuf/aktualizr` directory is
removed before the first command. -/
theorem offlineSignRepo_command_sequence (env : SignEnv) :
    ((offlineSignRepo env).result = true ↔
      (env.initResult = 0 ∧ env.pullResult = 0 ∧ env.addResult = 0 ∧
        env.signResult = 0 ∧ env.pushResult = 0)) ∧
    (offlineSignRepo env).removedBefore = env.localRepoIsDirectory ∧
    (env.initResult ≠ 0 →
      (offlineSignRepo env).commandsRun = [SignCmd.init] ∧
      (offlineSignRepo env).result = false) ∧
    (env.initResult = 0 → env.pullResult ≠ 0 →
      (offlineSignRepo env).commandsRun = [SignCmd.init, SignCmd.targetsPull] ∧
      (offlineSignRepo env).result = false) ∧
    (env.initResult = 0 → env.pullResult = 0 → env.addResult ≠ 0 →
      (offlineSignRepo env).commandsRun =
        [SignCmd.init, SignCmd.targetsPull, SignCmd.targetsAdd] ∧
      (offlineSignRepo env).result = false) ∧
    (env.initResult = 0 → env.pullResult = 0 → env.addResult = 0 → env.signResult ≠ 0 →
      (offlineSignRepo env).commandsRun =
        [SignCmd.init, SignCmd.targetsPull, SignCmd.targetsAdd, SignCmd.targetsSign] ∧
      (offlineSignRepo env).result = false) ∧
    (env.initResult = 0 → env.pullResult = 0 → env.addResult = 0 → env.signResult = 0 →
      env.pushResult ≠ 0 →
      (offlineSignRepo env).commandsRun =
        [SignCmd.init, SignCmd.targetsPull, SignCmd.targetsAdd, SignCmd.targetsSign,
         SignCmd.targetsPush] ∧
      (offlineSignRepo env).result = false) ∧
    (env.initResult = 0 → env.pullResult = 0 → env.addResult = 0 → env.signResult = 0 →
      env.pushResult = 0 →
      (offlineSignRepo env).commandsRun =
        [SignCmd.init, SignCmd.targetsPull, SignCmd.targetsAdd, SignCmd.targetsSign,
         SignCmd.targetsPush] ∧
      (offlineSignRepo env).result = true) := by
  by_cases h1 : env.initResult = 0 <;>
    by_cases h2 : env.pullResult = 0 <;>
      by_cases h3 : env.addResult = 0 <;>
        by_cases h4 : env.signResult = 0 <;>
          by_cases h5 : env.pushResult = 0 <;>
            simp [offlineSignRepo, h1, h2, h3, h4, h5]

/-- C10 witness: a run in which every command succeeds. -/
theorem offlineSignRepo_command_sequence_witness :
    (offlineSignRepo signEnvOk).result = true ∧
    (offlineSignRepo signEnvOk).commandsRun =
      [SignCmd.init, SignCmd.targetsPull, SignCmd.targetsAdd, SignCmd.targetsSign,
       SignCmd.targetsPush] :=
  ⟨(offlineSignRepo_command_sequence signEnvOk).1.mpr
      ⟨by decide, by decide, by decide, by decide, by decide⟩,
   ((offlineSignRepo_command_sequence signEnvOk).2.2.2.2.2.2.2
      (by decide) (by decide) (by decide) (by decide) (by decide)).1⟩

end Deploy

namespace Sched

/-- C2: in every reachable state of the modelled scheduler, every
object whose presence is `present` has all of its dependencies
`present` — an object is never marked present before its
dependencies. -/
theorem reachable_depClosed (g : ObjGraph) (s : SchedState) (h : Reachable g s) :
    DepClosed g s :=
  fun o ho d hd => reachable_dispatchInv h o (Or.inl ho) d hd

/-- C2 witness: the invariant instantiated at the initial state of a
concrete dependency graph. -/
theorem reachable_depClosed_witness :
    Reachable graphW initialSched ∧ DepClosed graphW initialSched :=
  ⟨Reachable.init, reachable_depClosed graphW initialSched Reachable.init⟩

end Sched
